import Mathlib

/-!
Verification development for the two C token contracts of this repository:
`src/c/qash/contract.c` (explicit-init token with allowances, memo and a
pause switch) and `src/c/erc20/contract.c` (legacy variant with a
lazy-bootstrap mint and no allowances).

Storage (`chain_storage_get` / `chain_storage_set` / `chain_storage_size_get`)
is a key-value store over raw byte keys.  The qash contract addresses four
disjoint key classes (the singleton keys OWNER, PAUSE and TOTAL_SUPPLY, the
prefixed balance keys and the prefixed allowance keys); their pairwise
disjointness is proved below on the byte-level key builders, which justifies
modelling the store as one record with a field per key class.  u64 values are
`Nat` with wrap-around written explicitly as `% 2 ^ 64` where the C wraps.
An invocation that reaches `assert`'s `exit(1)` aborts: it is modelled as
`none`, and the host discards all writes of an aborted invocation.
-/

namespace Contracts

/-- Addresses are raw byte sequences compared byte-wise (`memcmp`); the chain
fixes their length to 35 (`ADDRESS_SIZE` in `chain.h` / `vertex.h`). -/
abbrev Address := List Nat

/-- `ADDRESS_SIZE` from `chain.h`. -/
def ADDRESS_SIZE : Nat := 35

/-- Association-list model of the key-value store for one key class:
`chain_storage_size_get` is positive exactly on the stored keys, and
`chain_storage_get` returns the stored value there (`none` models an
absent key, whose size is 0). -/
def lookupOpt {α : Type} [DecidableEq α] : List (α × Nat) → α → Option Nat
  | [], _ => none
  | (k, v) :: t, k' => if k' = k then some v else lookupOpt t k'

/-- The size-guarded u64 read used by `get_balance` / `get_allowance` /
`is_paused` in `qash/contract.c`: an absent key reads as 0. -/
def getVal {α : Type} [DecidableEq α] (l : List (α × Nat)) (k : α) : Nat :=
  (lookupOpt l k).getD 0

/-- `chain_storage_set`: overwrite the value stored under a key, or create
the entry. -/
def setVal {α : Type} [DecidableEq α] : List (α × Nat) → α → Nat → List (α × Nat)
  | [], k, v => [(k, v)]
  | (k', v') :: t, k, v =>
      if k = k' then (k, v) :: t else (k', v') :: setVal t k v

/-! ## KeyBuilder (qash/contract.c lines 4-16, 56-68)

The C passes `sizeof(...)` of each string literal as the key length, so every
key carries its terminating NUL byte.  The byte lists below are the ASCII
bytes of the literals, NUL included.  (`PFX` abbreviates the C macro names
`BALANCES_PREFIX` / `ALLOWANCES_PREFIX`.) -/

/-- Bytes of `"BALANCES"` with its NUL: `sizeof(BALANCES_PREFIX) = 9`. -/
def BALANCES_PFX : List Nat := [66, 65, 76, 65, 78, 67, 69, 83, 0]

/-- Bytes of `"ALLOWANCES"` with its NUL: `sizeof(ALLOWANCES_PREFIX) = 11`. -/
def ALLOWANCES_PFX : List Nat := [65, 76, 76, 79, 87, 65, 78, 67, 69, 83, 0]

/-- Bytes of `"OWNER"` with its NUL. -/
def OWNER_KEY : List Nat := [79, 87, 78, 69, 82, 0]

/-- Bytes of `"PAUSE"` with its NUL. -/
def PAUSE_KEY : List Nat := [80, 65, 85, 83, 69, 0]

/-- Bytes of `"TOTAL_SUPPLY"` with its NUL. -/
def TOTAL_SUPPLY_KEY : List Nat := [84, 79, 84, 65, 76, 95, 83, 85, 80, 80, 76, 89, 0]

/-- `_build_balance_key`: `BALANCES_PREFIX ++ address` (44 bytes). -/
def build_balance_key (a : Address) : List Nat := BALANCES_PFX ++ a

/-- `_build_allowance_key`: `ALLOWANCES_PREFIX ++ owner ++ spender` (81 bytes). -/
def build_allowance_key (o s : Address) : List Nat := ALLOWANCES_PFX ++ o ++ s

/-! ## Checked arithmetic (qash/contract.c lines 39-51) -/

/-- `2^64`, the wrap modulus of the C `uint64_t`. -/
def U64 : Nat := 2 ^ 64

/-- `add` from `qash/contract.c`: `c = a + b` wraps modulo `2^64`;
`assert(c >= a)` turns the wrapped case into an abort (`none`). -/
def add (a b : Nat) : Option Nat :=
  let c := (a + b) % U64
  if a ≤ c then some c else none

/-- `sub` from `qash/contract.c`: `assert(b <= a)` then `a - b`. -/
def sub (a b : Nat) : Option Nat :=
  if b ≤ a then some (a - b) else none

/-! ## Persistent state of the qash contract

One field per storage key class (disjointness of the classes is proved in
the key-derivation theorem below).  `owner = none` models an empty `OWNER`
slot (`chain_storage_size_get(OWNER_KEY, ...) == 0`).  The `PAUSE` slot only
ever holds the byte 1 (written by `pause`) or 0 (written by `unpause`), and
an absent slot reads as 0, so it is a `Bool`.  `totalSupply = none` models an
absent `TOTAL_SUPPLY` slot (it is written exactly once, by `init`). -/

structure QState where
  owner : Option Address
  paused : Bool
  balances : List (Address × Nat)
  allowances : List ((Address × Address) × Nat)
  totalSupply : Option Nat
deriving DecidableEq

/-- `get_balance`: 0 when the balance entry is absent, else the stored u64. -/
def get_balance (s : QState) (a : Address) : Nat := getVal s.balances a

/-- `is_paused`: the stored pause flag, 0 (false) when absent. -/
def is_paused (s : QState) : Bool := s.paused

/-- `get_allowance`: 0 when the allowance entry is absent. -/
def get_allowance (s : QState) (o sp : Address) : Nat := getVal s.allowances (o, sp)

/-- `is_owner`: byte-wise compare the caller with the stored `OWNER` slot.
(An empty slot compares unequal to every caller.) -/
def is_owner (s : QState) (caller : Address) : Bool := decide (s.owner = some caller)

/-- `_transfer` from `qash/contract.c` (lines 176-198): abort when paused,
read both balances, abort when `from_balance < value`, apply checked
arithmetic, then write the new `from` balance and then the new `toA`
balance.  The two writes go to `setVal` in the C's write order, so when
`fromA = toA` the second write overwrites the first, exactly as the two
`chain_storage_set` calls on the identical key do. -/
def _transfer (s : QState) (fromA toA : Address) (value memo : Nat) : Option QState :=
  if is_paused s then none
  else
    let from_balance := get_balance s fromA
    let to_balance := get_balance s toA
    if from_balance < value then none
    else
      match sub from_balance value, add to_balance value with
      | some fb, some tb =>
          some { s with balances := setVal (setVal s.balances fromA fb) toA tb }
      | _, _ => none

/-- `transfer`: `_transfer` with the caller as source. -/
def transfer (s : QState) (caller toA : Address) (value memo : Nat) : Option QState :=
  _transfer s caller toA value memo

/-- `approve`: unconditionally overwrite the allowance of
`(caller, spender)` with `value`. -/
def approve (s : QState) (caller spender : Address) (value : Nat) : Option QState :=
  some { s with allowances := setVal s.allowances (caller, spender) value }

/-- `transfer_from` (lines 239-253): the caller is the spender; checked-sub
the value from the stored allowance (abort when `value > allowance`), write
the debited allowance, then run `_transfer`.  An abort inside `_transfer`
aborts the whole invocation, allowance write included. -/
def transfer_from (s : QState) (caller fromA toA : Address) (value memo : Nat) :
    Option QState :=
  match sub (get_allowance s fromA caller) value with
  | none => none
  | some a' =>
      _transfer { s with allowances := setVal s.allowances (fromA, caller) a' }
        fromA toA value memo

/-- `pause` (lines 155-161): `assert(is_owner() && !is_paused())`, then store
flag 1. -/
def pause (s : QState) (caller : Address) : Option QState :=
  if is_owner s caller && !is_paused s then some { s with paused := true } else none

/-- `unpause` (lines 166-171): `assert(is_owner() && is_paused())`, then
store flag 0. -/
def unpause (s : QState) (caller : Address) : Option QState :=
  if is_owner s caller && is_paused s then some { s with paused := false } else none

/-- `change_owner`: `assert(is_owner())`, then overwrite the `OWNER` slot. -/
def change_owner (s : QState) (caller newOwner : Address) : Option QState :=
  if is_owner s caller then some { s with owner := some newOwner } else none

/-- `init` (lines 78-93): abort unless the `OWNER` slot is empty
(`chain_storage_size_get(OWNER_KEY, ...) == 0`); then store the caller as
owner, store `value` as the caller's balance and as `TOTAL_SUPPLY`. -/
def init (s : QState) (caller : Address) (value : Nat) : Option QState :=
  if s.owner = none then
    some { s with
            owner := some caller,
            balances := setVal s.balances caller value,
            totalSupply := some value }
  else none

/-- The mutating public operations of the qash contract, each carrying its
caller (`chain_get_caller`) and arguments.  The read-only entry points
(`get_owner`, `get_balance`, `is_paused`, `get_allowance`, `get_decimals`,
`get_symbol`, `get_total_supply`) never write and never abort. -/
inductive Op where
  | opInit (caller : Address) (value : Nat)
  | opTransfer (caller toA : Address) (value memo : Nat)
  | opTransferFrom (caller fromA toA : Address) (value memo : Nat)
  | opApprove (caller spender : Address) (value : Nat)
  | opPause (caller : Address)
  | opUnpause (caller : Address)
  | opChangeOwner (caller newOwner : Address)
deriving DecidableEq

/-- One invocation of a mutating public operation: `none` is an abort
(`assert` reached `exit(1)`). -/
def step : Op → QState → Option QState
  | .opInit c v, s => init s c v
  | .opTransfer c t v m, s => transfer s c t v m
  | .opTransferFrom c f t v m, s => transfer_from s c f t v m
  | .opApprove c sp v, s => approve s c sp v
  | .opPause c, s => pause s c
  | .opUnpause c, s => unpause s c
  | .opChangeOwner c n, s => change_owner s c n

/-- Modelled from the spec: the host applies an invocation transactionally —
an invocation that aborts (`exit(1)`) has all of its writes discarded, so the
observable post-state of a failing invocation is the pre-state (spec sections
5 and 7).  The rollback itself lives in the host, outside this repository;
only the abort (`assert`/`exit`) is in `src`. -/
def exec (op : Op) (s : QState) : QState := (step op s).getD s

/-- Sum of all stored account balances. -/
def sumBalances (s : QState) : Nat := (s.balances.map Prod.snd).sum

/-! ## The legacy erc20 contract (src/c/erc20/contract.c)

Balance entries are keyed by the raw 35-byte address and written as 8 bytes
(`sdk_storage_set(toA, ADDR_SIZE, &to_balance, 8)`), but read back through
`from_bytes`, which loads only 4 bytes (`*(uint32_t*)bytes`) and returns a C
`int` (32-bit): a stored value `b` is read as the two's-complement
reinterpretation of `b mod 2^32`, and binding that `int` to a `uint64_t`
(in `change_balance`) sign-extends it.  `from_bytes(NULL) = 0` models an
absent entry. -/

structure EState where
  owner : Option Address
  pauseFlag : Nat
  balances : List (Address × Nat)
deriving DecidableEq

/-- `2^32` and `2^31`, the wrap modulus and sign bit of the C 32-bit `int`. -/
def U32 : Nat := 2 ^ 32

/-- The sign-bit threshold of a 32-bit `int`. -/
def I32MIN : Nat := 2 ^ 31

/-- `from_bytes`: load the low 4 bytes of the stored value and return them
as a 32-bit `int` (two's-complement wrap of the `uint32_t` load); 0 for an
absent entry. -/
def from_bytes (stored : Option Nat) : Int :=
  match stored with
  | none => 0
  | some b =>
      let u := b % U32
      if u < I32MIN then (u : Int) else (u : Int) - (U32 : Int)

/-- C conversion of a (32-bit) `int` value to `uint64_t`: reduce modulo
`2^64` (sign extension for negatives). -/
def intToU64 (x : Int) : Nat := (x % ((2 : Int) ^ 64)).toNat

/-- The 64-bit balance value `change_balance` works with after reading a
stored entry: `uint64_t to_balance = from_bytes(...)`. -/
def readBalU64 (stored : Option Nat) : Nat := intToU64 (from_bytes stored)

/-- `caller_is_owner` in `erc20/contract.c`: byte-wise compare the caller
with the stored `OWNER` slot. -/
def e_caller_is_owner (es : EState) (caller : Address) : Bool :=
  decide (es.owner = some caller)

/-- `change_balance` (erc20, lines 92-104): read the balance through the
4-byte load, check only the debit direction (`sign < 0`) for underflow, and
store the 8-byte result.  The credit direction `to_balance += amount` is
unchecked `uint64_t` arithmetic and wraps modulo `2^64`.  Returns the new
state and the C return code (0 success, -1 failure). -/
def e_change_balance (es : EState) (toA : Address) (amount : Nat) (sign : Int) :
    EState × Int :=
  let to_balance := readBalU64 (lookupOpt es.balances toA)
  if sign < 0 then
    if to_balance < amount then (es, -1)
    else ({ es with balances := setVal es.balances toA (to_balance - amount) }, 0)
  else ({ es with balances := setVal es.balances toA ((to_balance + amount) % U64) }, 0)

/-- `get_balance` (erc20, lines 140-142): the `int` produced by the 4-byte
load of the stored 8-byte balance. -/
def e_get_balance (es : EState) (a : Address) : Int :=
  from_bytes (lookupOpt es.balances a)

/-- `pause` (erc20, lines 70-77): owner check only — the current pause state
is not inspected; on success store flag 1. -/
def e_pause (es : EState) (caller : Address) : EState × Int :=
  if e_caller_is_owner es caller then ({ es with pauseFlag := 1 }, 0) else (es, -1)

/-- `unpause` (erc20, lines 79-86): owner check only; on success store
flag 0. -/
def e_unpause (es : EState) (caller : Address) : EState × Int :=
  if e_caller_is_owner es caller then ({ es with pauseFlag := 0 }, 0) else (es, -1)

/-! ## Concrete data for witnesses and counterexamples -/

/-- A 35-byte address of 1-bytes. -/
def addrA : Address := List.replicate 35 1

/-- A 35-byte address of 2-bytes. -/
def addrB : Address := List.replicate 35 2

/-- A 35-byte address of 3-bytes. -/
def addrC : Address := List.replicate 35 3

/-- The fresh, pre-init qash state: every storage slot absent. -/
def s0 : QState := ⟨none, false, [], [], none⟩

/-- After a successful `init(100)` by `addrA` on the fresh state. -/
def s1 : QState := exec (.opInit addrA 100) s0

/-- After `addrA` self-transfers 10 on `s1`. -/
def s2 : QState := exec (.opTransfer addrA addrA 10 0) s1

/-- An initialized, paused qash state with a balance and an allowance. -/
def p0 : QState := ⟨some addrA, true, [(addrB, 50)], [((addrB, addrC), 40)], some 50⟩

/-- qash scenario for the allowance claims: `init(1000)` by `addrA`. -/
def t0 : QState := exec (.opInit addrA 1000) s0

/-- ... then `approve(addrB, 300)` by `addrA`. -/
def t1 : QState := exec (.opApprove addrA addrB 300) t0

/-- ... then `transfer_from(addrA, addrC, 200, memo 7)` by `addrB`. -/
def t2 : QState := exec (.opTransferFrom addrB addrA addrC 200 7) t1

/-- An erc20 state owned by `addrA`, unpaused, no balances. -/
def eOwned : EState := ⟨some addrA, 0, []⟩

/-- An erc20 state owned by `addrA` that is already paused. -/
def eP : EState := ⟨some addrA, 1, []⟩

/-- An erc20 state where `addrA` has the stored 64-bit balance `2^31`
(bit 31 set, below `2^32`). -/
def esX : EState := ⟨some addrA, 0, [(addrA, 2 ^ 31)]⟩

/-- An erc20 state where `addrA` has stored balance 1. -/
def esY : EState := ⟨some addrA, 0, [(addrA, 1)]⟩

/-! ## Storage lemmas -/

/-- Reading back the key just written returns the written value. -/
theorem getVal_setVal_self {α : Type} [DecidableEq α] (l : List (α × Nat)) (k : α)
    (v : Nat) : getVal (setVal l k v) k = v := by
  induction l with
  | nil => simp [setVal, getVal, lookupOpt]
  | cons p t ih =>
      obtain ⟨k', v'⟩ := p
      by_cases h : k = k'
      · subst h; simp [setVal, getVal, lookupOpt]
      · simp only [setVal, if_neg h, getVal, lookupOpt, if_neg h]
        exact ih

/-! ## Claims -/

/-- C1: the claimed reachable-state invariant `sum(balances) = total_supply`
is violated by the code on a self-transfer.  From the fresh state, a
successful `init(100)` by `addrA` followed by a successful
`transfer(addrA, 10)` with the caller `addrA` as destination leaves
`total_supply = 100` but `sum(balances) = 110`: `_transfer` caches both
balances before writing, and its two `chain_storage_set` calls hit the same
balance key, so the `to` write (`100 + 10`) overwrites the `from` write
(`100 - 10`). -/
theorem C1_sum_invariant_violated :
    step (.opInit addrA 100) s0 = some s1 ∧
    step (.opTransfer addrA addrA 10 0) s1 = some s2 ∧
    s2.totalSupply = some 100 ∧ sumBalances s2 = 110 ∧ sumBalances s2 ≠ 100 := by
  decide

/-- C2: the claim predicts that a successful self-transfer leaves the
caller's balance unchanged; the code instead increases it by `value`.  On
the initialized state `s1` (not paused, `balance(addrA) = 100 ≥ 10`), the
self-transfer of 10 succeeds and leaves `balance(addrA) = 110`, not 100. -/
theorem C2_self_transfer_balance_increases :
    is_paused s1 = false ∧ get_balance s1 addrA = 100 ∧
    step (.opTransfer addrA addrA 10 0) s1 = some s2 ∧
    get_balance s2 addrA = 110 := by
  decide

/-- C3: a failing invocation of any mutating public operation leaves the
whole persistent state exactly as it was: an abort (`assert` reaching
`exit(1)`) makes the host discard every write of the invocation, so the
observable post-state is the pre-state.  In particular a `transfer_from`
whose allowance debit succeeds but whose balance transfer aborts (paused or
insufficient balance) leaves the allowance value unchanged (see the
witness, which runs exactly that scenario on a paused state). -/
theorem C3_abort_discards_state (op : Op) (s : QState) (h : step op s = none) :
    exec op s = s := by
  simp [exec, h]

/-- Witness for C3: on the paused state `p0` (allowance of `(addrB, addrC)`
is 40 ≥ 10, so the allowance debit itself succeeds before `_transfer`
aborts), the `transfer_from` invocation aborts and the state — the
written allowance included — is exactly `p0` again. -/
theorem C3_abort_discards_state_witness :
    step (.opTransferFrom addrC addrB addrA 10 0) p0 = none ∧
    exec (.opTransferFrom addrC addrB addrA 10 0) p0 = p0 :=
  ⟨by decide, C3_abort_discards_state _ _ (by decide)⟩

/-- Closed form of the qash checked add on in-range operands: it fails
exactly when the 64-bit sum wraps, and otherwise returns the exact sum. -/
theorem add_eq_check (a b : Nat) (ha : a < U64) (hb : b < U64) :
    add a b = if U64 ≤ a + b then none else some (a + b) := by
  have hU : U64 = 18446744073709551616 := by norm_num [U64]
  show (if a ≤ (a + b) % U64 then some ((a + b) % U64) else none)
      = if U64 ≤ a + b then none else some (a + b)
  rw [hU] at ha hb ⊢
  by_cases h : 18446744073709551616 ≤ a + b
  · have h1 : (a + b) % 18446744073709551616 = a + b - 18446744073709551616 := by omega
    rw [h1, if_neg (by omega), if_pos h]
  · have h1 : (a + b) % 18446744073709551616 = a + b := by omega
    rw [h1, if_pos (by omega), if_neg h]

/-- C4 (amended): in the qash variant all balance/supply arithmetic is
checked — `add` fails exactly when the 64-bit sum wraps and otherwise
returns the exact (unwrapped) sum, `sub` fails exactly when `b > a` and
otherwise returns the exact difference, `add(UINT64_MAX, 1)` fails and
`sub(0, 1)` fails; in the legacy erc20 variant only the debit direction of
`change_balance` is checked (it fails, with no write, when the read balance
is below the amount) while the credit direction is unchecked `uint64_t`
arithmetic that can store a wrapped result (see the counterexample). -/
theorem C4_checked_arithmetic (a b : Nat) (ha : a < U64) (hb : b < U64)
    (es : EState) (toA : Address) (amt : Nat) :
    (add a b = none ↔ U64 ≤ a + b) ∧
    (∀ c, add a b = some c → c = a + b) ∧
    (sub a b = none ↔ a < b) ∧
    (∀ c, sub a b = some c → c = a - b) ∧
    add (U64 - 1) 1 = none ∧ sub 0 1 = none ∧
    (readBalU64 (lookupOpt es.balances toA) < amt →
      e_change_balance es toA amt (-1) = (es, -1)) := by
  have hadd := add_eq_check a b ha hb
  refine ⟨?_, ?_, ?_, ?_, by decide, by decide, ?_⟩
  · rw [hadd]; split <;> simp [*]
  · intro c hc; rw [hadd] at hc; split at hc <;> simp_all
  · unfold sub; split <;> simp <;> omega
  · intro c hc; unfold sub at hc; split at hc <;> simp_all
  · intro hlt
    simp [e_change_balance, hlt, (by norm_num : (-1 : Int) < 0)]

/-- Witness for C4: the two spec examples, and a checked erc20 debit
failing on a concrete state (`addrA` holds 1 < 10 in `esY`). -/
theorem C4_checked_arithmetic_witness :
    add (U64 - 1) 1 = none ∧ sub 0 1 = none ∧
    e_change_balance esY addrA 10 (-1) = (esY, -1) := by
  obtain ⟨h1, h2, h3, h4, h5, h6, h7⟩ :=
    C4_checked_arithmetic 5 7 (by norm_num [U64]) (by norm_num [U64]) esY addrA 10
  exact ⟨h5, h6, h7 (by decide)⟩

/-- Counterexample for C4: the erc20 credit path is not overflow-checked.
On `esY` (stored balance of `addrA` is 1), crediting `UINT64_MAX` wraps:
`change_balance` stores the wrapped balance 0 and reports success (0), with
no Overflow failure. -/
theorem C4_cex_erc20_unchecked_add :
    e_change_balance esY addrA (U64 - 1) 1 = ({ esY with balances := [(addrA, 0)] }, 0) := by
  decide

/-- C6: `approve` overwrites.  For every caller, spender and values `v1`,
`v2`, approving `v1` and then `v2` both succeed and leave the stored
allowance of `(caller, spender)` at exactly `v2` (not `v1 + v2`, which
differs from `v2` whenever `v1 ≠ 0`). -/
theorem C6_approve_overwrites (s : QState) (caller spender : Address) (v1 v2 : Nat) :
    ∃ s1' s2', approve s caller spender v1 = some s1' ∧
      approve s1' caller spender v2 = some s2' ∧
      get_allowance s2' caller spender = v2 := by
  refine ⟨_, _, rfl, rfl, ?_⟩
  simp only [approve, get_allowance]
  exact getVal_setVal_self _ _ _

/-- C7 (amended): in the qash variant, `pause` aborts when the contract is
already paused and `unpause` aborts when it is not paused, both abort when
the caller is not the stored owner, a successful `pause` sets the flag and a
successful `unpause` clears it; in the legacy erc20 variant, `pause` and
`unpause` check only ownership (returning -1 with no write for a non-owner)
and otherwise unconditionally store flag 1 resp. 0 — the current pause state
is never inspected, so pausing while paused succeeds (see the
counterexample). -/
theorem C7_pause_unpause (s : QState) (es : EState) (c : Address) :
    (is_paused s = true → pause s c = none) ∧
    (is_paused s = false → unpause s c = none) ∧
    (s.owner ≠ some c → pause s c = none ∧ unpause s c = none) ∧
    (∀ s', pause s c = some s' → s.owner = some c ∧ is_paused s = false ∧
      s' = { s with paused := true }) ∧
    (∀ s', unpause s c = some s' → s.owner = some c ∧ is_paused s = true ∧
      s' = { s with paused := false }) ∧
    (es.owner ≠ some c → e_pause es c = (es, -1) ∧ e_unpause es c = (es, -1)) ∧
    (es.owner = some c → e_pause es c = ({ es with pauseFlag := 1 }, 0) ∧
      e_unpause es c = ({ es with pauseFlag := 0 }, 0)) := by
  refine ⟨?_, ?_, ?_, ?_, ?_, ?_, ?_⟩
  · intro h; simp [pause, is_paused] at h; simp [pause, is_paused, h]
  · intro h; simp [unpause, is_paused] at h; simp [unpause, is_paused, h]
  · intro h; constructor <;> simp [pause, unpause, is_owner, h]
  · intro s' h
    by_cases ho : s.owner = some c
    · by_cases hp : s.paused
      · simp [pause, is_owner, is_paused, ho, hp] at h
      · simp [pause, is_owner, is_paused, ho, hp] at h
        refine ⟨ho, by simp [is_paused, hp], ?_⟩
        rw [← h]; simp [ho]
    · simp [pause, is_owner, ho] at h
  · intro s' h
    by_cases ho : s.owner = some c
    · by_cases hp : s.paused
      · simp [unpause, is_owner, is_paused, ho, hp] at h
        refine ⟨ho, by simp [is_paused, hp], ?_⟩
        rw [← h]; simp [ho]
      · simp [unpause, is_owner, is_paused, ho, hp] at h
    · simp [unpause, is_owner, ho] at h
  · intro h
    exact ⟨by simp [e_pause, e_caller_is_owner, h],
           by simp [e_unpause, e_caller_is_owner, h]⟩
  · intro h
    exact ⟨by simp [e_pause, e_caller_is_owner, h],
           by simp [e_unpause, e_caller_is_owner, h]⟩

/-- Witness for C7: on the paused qash state `p0` the owner's `pause`
aborts, and on the erc20 state `eOwned` (owned by `addrA`) a non-owner's
`pause` fails with -1 and no write. -/
theorem C7_pause_unpause_witness :
    pause p0 addrA = none ∧ e_pause eOwned addrB = (eOwned, -1) :=
  ⟨(C7_pause_unpause p0 eOwned addrA).1 (by decide),
   ((C7_pause_unpause p0 eOwned addrB).2.2.2.2.2.1 (by decide)).1⟩

/-- Counterexample for C7: in the erc20 variant, calling `pause` while
already paused is not an error — on the paused state `eP` the owner's
`pause` returns success (0), the flag simply staying 1. -/
theorem C7_cex_erc20_pause_while_paused :
    eP.pauseFlag = 1 ∧ e_pause eP addrA = (eP, 0) := by
  decide

/-- C8: `init(v)` succeeds exactly when the `OWNER` slot is empty; on
success it stores the caller as owner, the caller's balance as `v` and the
total supply as `v`, and any later `init` aborts (AlreadyInitialized),
leaving the whole state — owner, balances, total supply — unchanged. -/
theorem C8_init_once (s : QState) (caller : Address) (v : Nat) :
    ((init s caller v).isSome ↔ s.owner = none) ∧
    (∀ s', init s caller v = some s' →
      s'.owner = some caller ∧ get_balance s' caller = v ∧ s'.totalSupply = some v ∧
      ∀ c' v', init s' c' v' = none ∧ exec (.opInit c' v') s' = s') := by
  constructor
  · unfold init; split <;> simp [*]
  · intro s' h
    unfold init at h
    split at h
    · cases h
      refine ⟨rfl, ?_, rfl, ?_⟩
      · exact getVal_setVal_self _ _ _
      · intro c' v'
        exact ⟨by simp [init], by simp [exec, step, init]⟩
    · cases h

/-- Witness for C8: from the fresh state, `init(100)` by `addrA` yields
`s1` with owner `addrA`, balance 100 and total supply 100, and a second
`init(5)` by `addrB` aborts leaving `s1` unchanged. -/
theorem C8_init_once_witness :
    s1.owner = some addrA ∧ get_balance s1 addrA = 100 ∧ s1.totalSupply = some 100 ∧
    init s1 addrB 5 = none ∧ exec (.opInit addrB 5) s1 = s1 := by
  obtain ⟨h1, h2, h3, h4⟩ := (C8_init_once s0 addrA 100).2 s1 (by decide)
  exact ⟨h1, h2, h3, (h4 addrB 5).1, (h4 addrB 5).2⟩

/-- Inversion of a successful `_transfer`: it was not paused, the source
balance sufficed, both checked operations succeeded, and the result state is
the double balance write. -/
theorem _transfer_inv (s : QState) (fromA toA : Address) (v memo : Nat) (s' : QState)
    (h : _transfer s fromA toA v memo = some s') :
    is_paused s = false ∧ ¬ get_balance s fromA < v ∧
    ∃ fb tb, sub (get_balance s fromA) v = some fb ∧
      add (get_balance s toA) v = some tb ∧
      s' = { s with balances := setVal (setVal s.balances fromA fb) toA tb } := by
  unfold _transfer at h
  split at h
  · exact Option.noConfusion h
  · dsimp only at h
    split at h
    · exact Option.noConfusion h
    · split at h
      · rename_i h1 h2 x1 x2 fb tb heq1 heq2
        injection h with h
        exact ⟨by simpa using h1, h2, fb, tb, heq1, heq2, h.symm⟩
      · exact Option.noConfusion h

/-- Introduction for `_transfer`: under the checks it produces exactly the
double balance write. -/
theorem _transfer_eq (s : QState) (fromA toA : Address) (v memo : Nat) (fb tb : Nat)
    (hp : is_paused s = false) (hge : ¬ get_balance s fromA < v)
    (hfb : sub (get_balance s fromA) v = some fb)
    (htb : add (get_balance s toA) v = some tb) :
    _transfer s fromA toA v memo =
      some { s with balances := setVal (setVal s.balances fromA fb) toA tb } := by
  unfold _transfer
  rw [if_neg (by simp [hp]), if_neg hge, hfb, htb]

/-- C5: `transfer_from` fails whenever the value exceeds the stored
allowance of `(from, spender)` (the spender being the caller); when it
succeeds, that allowance decreases by exactly the value, and the balances
end up exactly as a successful `transfer` of the same value from `from` to
`to` on the pre-state would leave them. -/
theorem C5_transfer_from (s : QState) (caller fromA toA : Address) (v memo : Nat) :
    (get_allowance s fromA caller < v → transfer_from s caller fromA toA v memo = none) ∧
    (∀ s', transfer_from s caller fromA toA v memo = some s' →
      get_allowance s' fromA caller = get_allowance s fromA caller - v ∧
      ∃ t, transfer s fromA toA v memo = some t ∧ s'.balances = t.balances) := by
  constructor
  · intro hlt
    unfold transfer_from
    have hs : sub (get_allowance s fromA caller) v = none := by
      unfold sub; rw [if_neg (by omega)]
    rw [hs]
  · intro s' h
    unfold transfer_from at h
    rcases hsub : sub (get_allowance s fromA caller) v with _ | a'
    · rw [hsub] at h; exact Option.noConfusion h
    · rw [hsub] at h
      have hva : a' = get_allowance s fromA caller - v := by
        unfold sub at hsub; split at hsub <;> simp_all
      obtain ⟨hp, hge, fb, tb, hfb, htb, hs'⟩ := _transfer_inv _ _ _ _ _ _ h
      have hps : is_paused s = false := hp
      have hges : ¬ get_balance s fromA < v := hge
      have hfbs : sub (get_balance s fromA) v = some fb := hfb
      have htbs : add (get_balance s toA) v = some tb := htb
      subst hs'
      constructor
      · show getVal (setVal s.allowances (fromA, caller) a') (fromA, caller) = _
        rw [getVal_setVal_self]
        exact hva
      · exact ⟨_, _transfer_eq s fromA toA v memo fb tb hps hges hfbs htbs, rfl⟩

/-- Witness for C5: the end-to-end spec scenario — `init(1000)` by `addrA`,
`approve(addrB, 300)`, then `addrB` runs `transfer_from(addrA, addrC, 200, 7)`,
leaving allowance 100 and the balances a plain transfer would leave. -/
theorem C5_transfer_from_witness :
    get_allowance t2 addrA addrB = get_allowance t1 addrA addrB - 200 ∧
    (∃ t, transfer t1 addrA addrC 200 7 = some t ∧ t2.balances = t.balances) ∧
    transfer_from t0 addrB addrA addrC 2000 7 = none :=
  ⟨((C5_transfer_from t1 addrB addrA addrC 200 7).2 t2 (by decide)).1,
   ((C5_transfer_from t1 addrB addrA addrC 200 7).2 t2 (by decide)).2,
   (C5_transfer_from t0 addrB addrA addrC 2000 7).1 (by decide)⟩

/-- C9: storage-key derivation is total and deterministic (it is a pure
function of the inputs) and collision-free: balance keys are injective in
the address, allowance keys are injective in the (owner, spender) pair
(35-byte addresses make the split unambiguous), and a balance key never
equals an allowance key or any of the fixed singleton keys `OWNER`,
`PAUSE`, `TOTAL_SUPPLY` — the first byte of each class differs (`B`, `A`,
`O`, `P`, `T`), and the `sizeof`-included NUL terminators keep the classes
apart as well. -/
theorem C9_key_derivation (a b o s o' s' : Address)
    (ho : o.length = ADDRESS_SIZE) (ho' : o'.length = ADDRESS_SIZE) :
    (build_balance_key a = build_balance_key b → a = b) ∧
    (build_allowance_key o s = build_allowance_key o' s' → o = o' ∧ s = s') ∧
    build_balance_key a ≠ build_allowance_key o s ∧
    build_balance_key a ≠ OWNER_KEY ∧
    build_balance_key a ≠ PAUSE_KEY ∧
    build_balance_key a ≠ TOTAL_SUPPLY_KEY := by
  refine ⟨?_, ?_, ?_, ?_, ?_, ?_⟩
  · intro h
    simpa [build_balance_key, BALANCES_PFX] using h
  · intro h
    unfold build_allowance_key at h
    rw [List.append_assoc, List.append_assoc] at h
    have h2 : o ++ s = o' ++ s' := by
      simpa [ALLOWANCES_PFX] using h
    exact List.append_inj h2 (ho.trans ho'.symm)
  · simp [build_balance_key, build_allowance_key, BALANCES_PFX, ALLOWANCES_PFX]
  · simp [build_balance_key, BALANCES_PFX, OWNER_KEY]
  · simp [build_balance_key, BALANCES_PFX, PAUSE_KEY]
  · simp [build_balance_key, BALANCES_PFX, TOTAL_SUPPLY_KEY]

/-- Witness for C9 at concrete 35-byte addresses. -/
theorem C9_key_derivation_witness :
    build_balance_key addrA ≠ build_allowance_key addrA addrB ∧
    build_balance_key addrA ≠ OWNER_KEY :=
  ⟨(C9_key_derivation addrA addrA addrA addrB addrA addrB (by decide) (by decide)).2.2.1,
   (C9_key_derivation addrA addrA addrA addrB addrA addrB (by decide) (by decide)).2.2.2.1⟩

/-- The low (sign-clear) case of the erc20 balance read: the 64-bit value
`change_balance` works with is exactly the low 32 bits of the stored
balance. -/
theorem readBalU64_low (b : Nat) (h : b % U32 < I32MIN) :
    readBalU64 (some b) = b % U32 := by
  simp only [readBalU64, from_bytes, if_pos h, intToU64]
  have p64 : (2 : Int) ^ 64 = 18446744073709551616 := by norm_num
  have e1 : (U32 : Nat) = 4294967296 := by norm_num [U32]
  have e2 : (I32MIN : Nat) = 2147483648 := by norm_num [I32MIN]
  rw [p64]
  rw [e1] at *
  rw [e2] at h
  omega

/-- The high (sign-set) case of the erc20 balance read: the stored low 32
bits come back sign-extended into the 64-bit balance. -/
theorem readBalU64_high (b : Nat) (h : ¬ b % U32 < I32MIN) :
    readBalU64 (some b) = b % U32 + (U64 - U32) := by
  simp only [readBalU64, from_bytes, if_neg h, intToU64]
  have p64 : (2 : Int) ^ 64 = 18446744073709551616 := by norm_num
  have e1 : (U32 : Nat) = 4294967296 := by norm_num [U32]
  have e2 : (I32MIN : Nat) = 2147483648 := by norm_num [I32MIN]
  have e3 : (U64 : Nat) = 18446744073709551616 := by norm_num [U64]
  rw [p64]
  rw [e1, e3] at *
  rw [e2] at h
  omega

/-- C10 (amended): erc20 balances are written as 8 bytes but read back
through a 4-byte load returned as a signed 32-bit `int`, which
`change_balance` sign-extends into its 64-bit balance.  So every balance
read observes the stored balance `b` only through `b mod 2^32`: the low 32
bits of the observed 64-bit value are exactly `b mod 2^32`, the `int`
returned by `get_balance` has bit pattern `b mod 2^32`, two stored balances
agreeing modulo `2^32` are indistinguishable to every read, and the
observed 64-bit value equals `b mod 2^32` itself exactly when the stored
low 32 bits have bit 31 clear (otherwise it is `b mod 2^32` plus the
sign-extension `2^64 - 2^32`). -/
theorem C10_truncated_reads (b b' : Nat) :
    readBalU64 (some b) % U32 = b % U32 ∧
    (from_bytes (some b) % ((U32 : Nat) : Int)).toNat = b % U32 ∧
    (readBalU64 (some b) = b % U32 ↔ b % U32 < I32MIN) ∧
    (b % U32 = b' % U32 →
      from_bytes (some b) = from_bytes (some b') ∧
      readBalU64 (some b) = readBalU64 (some b')) := by
  have e1 : (U32 : Nat) = 4294967296 := by norm_num [U32]
  have e2 : (I32MIN : Nat) = 2147483648 := by norm_num [I32MIN]
  have e3 : (U64 : Nat) = 18446744073709551616 := by norm_num [U64]
  refine ⟨?_, ?_, ?_, ?_⟩
  · by_cases h : b % U32 < I32MIN
    · rw [readBalU64_low b h, e1]; omega
    · rw [readBalU64_high b h]
      rw [e1, e2] at *
      rw [e3]
      omega
  · by_cases h : b % U32 < I32MIN
    · simp only [from_bytes, if_pos h]
      rw [e1, e2] at *
      omega
    · simp only [from_bytes, if_neg h]
      rw [e1, e2] at *
      omega
  · by_cases h : b % U32 < I32MIN
    · rw [readBalU64_low b h]
      simp [h]
    · rw [readBalU64_high b h]
      rw [e1, e2] at *
      rw [e3]
      constructor
      · intro he; omega
      · intro he; omega
  · intro he
    constructor
    · simp only [from_bytes, he]
    · simp only [readBalU64, intToU64, from_bytes, he]

/-- Witness for C10: a stored balance of `2^32 + 5` (at least `2^32`, bit 31
clear) is observed as its low 32 bits, 5, and is indistinguishable from a
stored balance of 5. -/
theorem C10_truncated_reads_witness :
    readBalU64 (some (U32 + 5)) = (U32 + 5) % U32 ∧
    from_bytes (some (U32 + 5)) = from_bytes (some 5) :=
  ⟨(C10_truncated_reads (U32 + 5) 5).2.2.1.mpr (by decide),
   ((C10_truncated_reads (U32 + 5) 5).2.2.2 (by decide)).1⟩

/-- Counterexample for C10: with the stored 64-bit balance `2^31` at
`addrA` (state `esX`), the reads do not "return b modulo 2^32": the stored
low 32 bits are `2^31`, yet `get_balance` returns the negative `int`
`-2^31`, `change_balance`'s 64-bit balance read is the sign-extended
`2^64 - 2^31`, and a debit of `2^32` consequently succeeds (code 0) where a
read of `b mod 2^32 = 2^31 < 2^32` would have failed. -/
theorem C10_cex_sign_extension :
    (2 ^ 31 : Nat) % 2 ^ 32 = 2 ^ 31 ∧
    e_get_balance esX addrA = -(2 ^ 31 : Int) ∧
    readBalU64 (lookupOpt esX.balances addrA) = 2 ^ 64 - 2 ^ 31 ∧
    (e_change_balance esX addrA (2 ^ 32) (-1)).2 = 0 := by
  decide

end Contracts
